import Mathlib

/-!
Shallow embedding of the NEAR smart contract in `src/src/lib.rs` and
`src/src/utils.rs` (a rock-paper-scissors-style "champion" challenge game
built on NEAR's promise yield/resume mechanism).

Embedding conventions:
- `AccountId` is modelled as `String`; `CryptoHash` (`[u8; 32]`) as `List Nat`.
- `near_sdk::collections::UnorderedMap` / `LookupMap` are modelled as
  association lists with `mapLookup` / `mapInsert` / `mapRemove`;
  `UnorderedSet` as a duplicate-free-by-construction `List String` with
  `setInsert`. Only lookup/membership behaviour is relied on.
- Gas is modelled as `Nat`; `remaining_gas()` (prepaid minus used) is passed
  to `request` as an explicit parameter, as are host-provided values such as
  the caller (`env::predecessor_account_id()`) and the data id that
  `env::promise_yield_create` writes to the register.
- Every Rust `panic! / assert! / require! / expect` is modelled as
  `Except.error` with a constructor named after the panic message. On NEAR a
  panicking method call aborts its receipt and the host discards all state
  written during that call, so an error result carries no state: the
  pre-call contract state is the state that persists (see `resumeState`).
- `log!` and the `events::emit` observability calls are fire-and-forget
  host-side effects with no contract state; they are not modelled. The
  promise machinery of `respond` is modelled by returning the resume signal
  (`ResumeSignal`) that `env::promise_yield_resume` would emit.
- `str::to_lowercase` is modelled on the ASCII range (`rustToLowerChar`);
  full Unicode lowercasing is outside the model. The validity check itself
  (`is_valid_string`) only accepts ASCII `a`-`z`, exactly as the source.
- `serde_json::from_str::<ResponseMsg>` is modelled by `parseResponseMsg`,
  a parser for the canonical serde encoding of the `ResponseMsg` shape
  (declaration field order, no extra whitespace, no string escapes); other
  JSON spellings serde would also accept are outside the model. The empty
  string, in particular, fails to parse, as in serde.
-/

namespace Challenge

/-- Caller / account identity (`near_sdk::AccountId`). -/
abbrev AccountId := String

/-- The `CryptoHash` type `[u8; 32]` used for promise data ids. -/
abbrev CryptoHash := List Nat

/-- Request id type (`pub type RequestId = u64`); modelled as `Nat`, since
the monotonically issued counter is nowhere near wrap-around in any claim. -/
abbrev RequestId := Nat

/-- Lookup in an association-list map (first binding wins). -/
def mapLookup {α : Type} : List (Nat × α) → Nat → Option α
  | [], _ => none
  | (k2, v) :: rest, k => if k2 = k then some v else mapLookup rest k

/-- Insert into an association-list map, overwriting an existing binding,
as `UnorderedMap::insert` / `LookupMap::insert` do. -/
def mapInsert {α : Type} : List (Nat × α) → Nat → α → List (Nat × α)
  | [], k, v => [(k, v)]
  | (k2, v2) :: rest, k, v =>
      if k2 = k then (k, v) :: rest else (k2, v2) :: mapInsert rest k v

/-- Remove from an association-list map; removing an absent key is a
no-op, as `UnorderedMap::remove` / `LookupMap::remove` are. -/
def mapRemove {α : Type} : List (Nat × α) → Nat → List (Nat × α)
  | [], _ => []
  | (k2, v2) :: rest, k =>
      if k2 = k then mapRemove rest k else (k2, v2) :: mapRemove rest k

/-- Insert into a set modelled as a list (`UnorderedSet::insert`):
idempotent if the value is already present. -/
def setInsert (s : List String) (v : String) : List String :=
  if v ∈ s then s else s ++ [v]

/-- The `Request` record stored in the request ledger. -/
structure Request where
  data_id : CryptoHash
  originator_id : AccountId
  message : String
deriving DecidableEq

/-- The operator-submitted `Response` staged until resume. -/
structure Response where
  ok : Bool
  data : Option String
  signature : Option String
deriving DecidableEq

/-- The judgment payload shape (`ResponseMsg`) parsed from `Response.data`. -/
structure ResponseMsg where
  current_champion : String
  guess_wins : Bool
  reason : String
deriving DecidableEq

/-- The resume signal `respond` sends via `env::promise_yield_resume`:
the data id it targets and the serialized request id payload. -/
structure ResumeSignal where
  data_id : CryptoHash
  payload_request_id : RequestId
deriving DecidableEq

/-- Contract state (the `Contract` struct). -/
structure Contract where
  agent_name : String
  agent_public_key : String
  agent_system_prompt : String
  paused : Bool
  requests : List (RequestId × Request)
  responses : List (RequestId × Response)
  num_requests : Nat
  owner_id : AccountId
  operator_id : AccountId
  current_champion : String
  champion_owner : AccountId
  all_champions : List String
deriving DecidableEq

/-- Errors; each constructor is named after the panic message in the source.
Spec taxonomy correspondence: `ContractPaused` = ServiceUnavailable
("Contact paused"), `NotAnOperator` = Unauthorized ("ERR_NOT_AN_OPERATOR"),
`NotEnoughGas` = InsufficientBudget, `IllegalInput` = InvalidInput
("Illegal input string"), `RequestNotFound` = NotFound ("Request ID not
found", in `respond`), `WrongRequest` = NotFound ("Wrong request", in
`await_response`), `WrongResponseFormat` = MalformedJudgment ("Wrong
response message format"), `MissingResponse` = MissingResponse ("Response
is missing"), `IllegalCurrentChampion` = the staleness-check failure
("Illegal current champion"). -/
inductive ContractError where
  | ContractPaused
  | NotAnOperator
  | NotEnoughGas
  | IllegalInput
  | RequestNotFound
  | WrongRequest
  | WrongResponseFormat
  | MissingResponse
  | IllegalCurrentChampion
deriving DecidableEq

/-- ASCII-range model of Rust `char::to_lowercase` as used by
`str::to_lowercase` (maps `A`-`Z` to `a`-`z`, leaves other chars alone). -/
def rustToLowerChar (c : Char) : Char :=
  if 65 ≤ c.toNat ∧ c.toNat ≤ 90 then Char.ofNat (c.toNat + 32) else c

/-- Model of `str::to_lowercase` (ASCII range). -/
def toLowercase (s : String) : String :=
  String.mk (s.toList.map rustToLowerChar)

/-- Model of `c.is_ascii_lowercase()`. -/
def isAsciiLowerChar (c : Char) : Bool :=
  97 ≤ c.toNat ∧ c.toNat ≤ 122

/-- `utils::is_valid_string`: every character is ASCII lowercase `a`-`z`. -/
def is_valid_string (input : String) : Bool :=
  input.toList.all isAsciiLowerChar

/-- `MIN_REQUEST_GAS`: 40 TGas. -/
def MIN_REQUEST_GAS : Nat := 40 * 1000000000000

/-- The `new` initializer. -/
def Contract.new (owner_id operator_id : AccountId) (initial_champion : String)
    (agent_name agent_system_prompt agent_public_key : String) : Contract :=
  { agent_name := agent_name
    agent_public_key := agent_public_key
    agent_system_prompt := agent_system_prompt
    paused := false
    requests := []
    responses := []
    num_requests := 0
    owner_id := owner_id
    operator_id := operator_id
    current_champion := initial_champion
    champion_owner := owner_id
    all_champions := setInsert [] initial_champion }

/-- Internal mutator `set_champion`: inserts the new champion into the
history set, then overwrites `current_champion` and `champion_owner`. -/
def Contract.set_champion (self : Contract) (new_champion : String)
    (new_champion_owner : AccountId) : Contract :=
  { self with
    all_champions := setInsert self.all_champions new_champion
    current_champion := new_champion
    champion_owner := new_champion_owner }

/-- `set_system_prompt` (operator-gated). -/
def Contract.set_system_prompt (self : Contract) (caller : AccountId)
    (prompt : String) : Except ContractError Contract :=
  if caller = self.operator_id then
    Except.ok { self with agent_system_prompt := prompt }
  else Except.error ContractError.NotAnOperator

/-- The `request` entry point. `caller` is `env::predecessor_account_id()`,
`remainingGas` is `utils::remaining_gas()`, and `yielded_data_id` is the
data id `env::promise_yield_create` leaves in the register. The emitted
`run_agent` event and the returned promise are host effects, not state. -/
def Contract.request (self : Contract) (caller : AccountId)
    (remainingGas : Nat) (yielded_data_id : CryptoHash) (message : String) :
    Except ContractError Contract :=
  if self.paused then Except.error ContractError.ContractPaused
  else if remainingGas < MIN_REQUEST_GAS then
    Except.error ContractError.NotEnoughGas
  else
    let message := toLowercase message
    if is_valid_string message then
      let request_id := self.num_requests
      let request_with_data_id : Request :=
        { data_id := yielded_data_id, originator_id := caller
          message := message }
      Except.ok { self with
        requests := mapInsert self.requests request_id request_with_data_id
        num_requests := self.num_requests + 1 }
    else Except.error ContractError.IllegalInput

/-- The `respond` entry point (operator-only): stages the response and
signals the host to resume the yielded computation at `data_id`. -/
def Contract.respond (self : Contract) (caller : AccountId)
    (data_id : CryptoHash) (request_id : RequestId) (response : Response) :
    Except ContractError (Contract × ResumeSignal) :=
  if caller = self.operator_id then
    match mapLookup self.requests request_id with
    | none => Except.error ContractError.RequestNotFound
    | some _ =>
      Except.ok
        ({ self with responses := mapInsert self.responses request_id response },
         { data_id := data_id, payload_request_id := request_id })
  else Except.error ContractError.NotAnOperator

/-- Opening brace character, written by code point to keep literals plain. -/
def lbrace : Char := Char.ofNat 123

/-- Closing brace character. -/
def rbrace : Char := Char.ofNat 125

/-- Consume an expected literal prefix; returns the remaining input. -/
def parseLit : List Char → List Char → Option (List Char)
  | [], s => some s
  | _ :: _, [] => none
  | l :: ls, c :: cs => if c = l then parseLit ls cs else none

/-- Body of a JSON string up to the closing quote (escape-free fragment). -/
def parseStringBody : List Char → List Char → Option (String × List Char)
  | [], _ => none
  | c :: cs, acc =>
    if c = '"' then some (String.mk acc.reverse, cs)
    else if c = '\\' then none
    else parseStringBody cs (c :: acc)

/-- A JSON string token. -/
def parseJsonString : List Char → Option (String × List Char)
  | '"' :: rest => parseStringBody rest []
  | _ => none

/-- A JSON boolean token. -/
def parseJsonBool (s : List Char) : Option (Bool × List Char) :=
  match parseLit (String.toList ("true")) s with
  | some rest => some (true, rest)
  | none =>
    match parseLit (String.toList ("false")) s with
    | some rest => some (false, rest)
    | none => none

/-- The literal for a JSON object key followed by a colon. -/
def keyLit (name : String) : List Char :=
  '"' :: name.toList ++ ['"', ':']

/-- Model of `serde_json::from_str::<ResponseMsg>` on the canonical serde
encoding of the shape (fields in declaration order, no extra whitespace,
no escapes). The empty string fails, as in serde. -/
def parseResponseMsg (text : String) : Option ResponseMsg := do
  let s0 := text.toList
  let s1 ← parseLit [lbrace] s0
  let s2 ← parseLit (keyLit ("current_champion")) s1
  let (champ, s3) ← parseJsonString s2
  let s4 ← parseLit [','] s3
  let s5 ← parseLit (keyLit ("guess_wins")) s4
  let (wins, s6) ← parseJsonBool s5
  let s7 ← parseLit [','] s6
  let s8 ← parseLit (keyLit ("reason")) s7
  let (reason, s9) ← parseJsonString s8
  let s10 ← parseLit [rbrace] s9
  if s10 = [] then
    some { current_champion := champ, guess_wins := wins, reason := reason }
  else none

/-- The `await_response` resume handler (`#[private]`, i.e. callable only
by the contract account itself via the yield machinery; the access gate is
host-enforced and therefore not a parameter here). Mirrors the source's
order of effects: drain the staged response, remove the request, parse the
judgment, run the staleness check, then conditionally commit the champion
transition and return the raw response. Error results model panics: the
host reverts the call's writes, so no state accompanies them. -/
def Contract.await_response (self : Contract) (request_id : RequestId) :
    Except ContractError (Contract × Response) :=
  match mapLookup self.responses request_id with
  | none => Except.error ContractError.MissingResponse
  | some response =>
    let self1 := { self with responses := mapRemove self.responses request_id }
    match mapLookup self1.requests request_id with
    | none => Except.error ContractError.WrongRequest
    | some request =>
      let self2 :=
        { self1 with requests := mapRemove self1.requests request_id }
      let response_text := response.data.getD ("")
      match parseResponseMsg response_text with
      | none => Except.error ContractError.WrongResponseFormat
      | some parsed_message =>
        if parsed_message.current_champion = self2.current_champion then
          if response.ok && parsed_message.guess_wins then
            Except.ok
              (self2.set_champion (toLowercase request.message)
                request.originator_id, response)
          else Except.ok (self2, response)
        else Except.error ContractError.IllegalCurrentChampion

/-- The `remove_request` entry point (operator-only): unconditionally
removes both the request and any staged response. -/
def Contract.remove_request (self : Contract) (caller : AccountId)
    (request_id : RequestId) : Except ContractError Contract :=
  if caller = self.operator_id then
    Except.ok { self with
      requests := mapRemove self.requests request_id
      responses := mapRemove self.responses request_id }
  else Except.error ContractError.NotAnOperator

/-- The contract state that persists after the host processes an
`await_response` call for `request_id`: on success the returned state, on
panic the pre-call state (NEAR discards a panicking receipt's writes). -/
def resumeState (c : Contract) (request_id : RequestId) : Contract :=
  match c.await_response request_id with
  | Except.ok (c2, _) => c2
  | Except.error _ => c

/-- Reachable contract states: produced by `new` followed by any sequence
of successful `set_system_prompt`, `request`, `respond`, `await_response`
and `remove_request` calls (a failed call panics and leaves the previous,
already reachable, state). -/
inductive Reachable : Contract → Prop where
  | init : ∀ owner operator champ name prompt key,
      Reachable (Contract.new owner operator champ name prompt key)
  | set_system_prompt : ∀ c caller p c2, Reachable c →
      c.set_system_prompt caller p = Except.ok c2 → Reachable c2
  | request : ∀ c caller gas did msg c2, Reachable c →
      c.request caller gas did msg = Except.ok c2 → Reachable c2
  | respond : ∀ c caller did rid resp c2 sig, Reachable c →
      c.respond caller did rid resp = Except.ok (c2, sig) → Reachable c2
  | await_response : ∀ c rid c2 resp, Reachable c →
      c.await_response rid = Except.ok (c2, resp) → Reachable c2
  | remove_request : ∀ c caller rid c2, Reachable c →
      c.remove_request caller rid = Except.ok c2 → Reachable c2

/-- Whether an `Except` result is an error (a modelled panic). -/
def isErr {ε α : Type} : Except ε α → Bool
  | Except.error _ => true
  | Except.ok _ => false

/-- A JSON string literal token for building concrete judgment payloads. -/
def jsonStringLit (s : String) : List Char :=
  '"' :: s.toList ++ ['"']

/-- Build the canonical judgment payload text for concrete test states,
exactly the wire shape the external judge must produce. -/
def mkJudgmentJson (champ : String) (wins : Bool) (reason : String) : String :=
  String.mk ([lbrace] ++ keyLit ("current_champion") ++ jsonStringLit champ
    ++ [','] ++ keyLit ("guess_wins")
    ++ (if wins then String.toList ("true") else String.toList ("false"))
    ++ [','] ++ keyLit ("reason") ++ jsonStringLit reason ++ [rbrace])

/-- A freshly initialized sample contract with champion `rock`, used by
concrete witnesses and counterexamples. -/
def sampleContract : Contract :=
  Contract.new ("owner") ("operator") ("rock") ("agent") ("prompt") ("key")

/-- A sample stored request: `alice` challenging with `paper`. -/
def sampleRequest : Request :=
  { data_id := [1], originator_id := ("alice"), message := ("paper") }

/-- A sample staged response with `ok = false` and no data. -/
def sampleEmptyResponse : Response :=
  { ok := false, data := none, signature := none }

/-- A sample staged response with `ok = true` and no data. -/
def sampleOkNoDataResponse : Response :=
  { ok := true, data := none, signature := none }

/-- A second sample request: `bob` challenging with `fire`. -/
def bobRequest : Request :=
  { data_id := [2], originator_id := ("bob"), message := ("fire") }

/-- A staged winning judgment computed against champion `rock`. -/
def rockWinResponse : Response :=
  { ok := true, data := some (mkJudgmentJson ("rock") true ("paper covers rock"))
    signature := none }

/-- The judgment carried by `rockWinResponse`. -/
def rockWinMsg : ResponseMsg :=
  { current_champion := ("rock"), guess_wins := true
    reason := ("paper covers rock") }

/-- A state in which the live champion has moved on to `scissors` while a
judgment about `rock` is staged for request 0: the staleness scenario. -/
def staleContract : Contract :=
  { sampleContract with
    current_champion := ("scissors")
    all_champions := [("scissors")]
    requests := [(0, sampleRequest)]
    responses := [(0, rockWinResponse)]
    num_requests := 1 }

/-- A staged losing judgment (`ok = false`, `guess_wins = false`) against
champion `rock`. -/
def lossResponse : Response :=
  { ok := false, data := some (mkJudgmentJson ("rock") false ("nope"))
    signature := none }

/-- A state with one request and its staged losing judgment, ready to be
resolved exactly once. -/
def onceContract : Contract :=
  { sampleContract with
    requests := [(0, sampleRequest)]
    responses := [(0, lossResponse)]
    num_requests := 1 }

/-- A staged response whose data is not a judgment payload. -/
def garbageResponse : Response :=
  { ok := true, data := some ("not json"), signature := none }

/-- A state with one request and a staged unparseable response. -/
def malformedContract : Contract :=
  { sampleContract with
    requests := [(0, sampleRequest)]
    responses := [(0, garbageResponse)]
    num_requests := 1 }

/-- The state after `alice` requests `paper` on the sample contract. -/
def requestedContract : Contract :=
  { sampleContract with requests := [(0, sampleRequest)], num_requests := 1 }

/-- `requestedContract` with the winning rock judgment staged for id 0. -/
def winStagedContract : Contract :=
  { requestedContract with responses := [(0, rockWinResponse)] }

end Challenge

deriving instance DecidableEq for Except

namespace Challenge

/-- Looking up a key just inserted yields the inserted value. -/
theorem mapLookup_mapInsert_self {α : Type} (m : List (Nat × α)) (k : Nat)
    (v : α) : mapLookup (mapInsert m k v) k = some v := by
  induction m with
  | nil => simp [mapInsert, mapLookup]
  | cons hd tl ih =>
    obtain ⟨k2, v2⟩ := hd
    by_cases h : k2 = k <;> simp [mapInsert, mapLookup, h, ih]

/-- Looking up any other key is unaffected by an insert. -/
theorem mapLookup_mapInsert_ne {α : Type} (m : List (Nat × α)) (k k2 : Nat)
    (v : α) (h : k2 ≠ k) :
    mapLookup (mapInsert m k v) k2 = mapLookup m k2 := by
  induction m with
  | nil => simp [mapInsert, mapLookup, Ne.symm h]
  | cons hd tl ih =>
    obtain ⟨k3, v3⟩ := hd
    by_cases h3 : k3 = k
    · subst h3
      simp [mapInsert, mapLookup, Ne.symm h]
    · simp [mapInsert, mapLookup, h3, ih]

/-- A removed key is absent. -/
theorem mapLookup_mapRemove_self {α : Type} (m : List (Nat × α)) (k : Nat) :
    mapLookup (mapRemove m k) k = none := by
  induction m with
  | nil => simp [mapRemove, mapLookup]
  | cons hd tl ih =>
    obtain ⟨k2, v2⟩ := hd
    by_cases h : k2 = k <;> simp [mapRemove, mapLookup, h, ih]

/-- Removing any other key leaves a lookup unaffected. -/
theorem mapLookup_mapRemove_ne {α : Type} (m : List (Nat × α)) (k k2 : Nat)
    (h : k2 ≠ k) : mapLookup (mapRemove m k) k2 = mapLookup m k2 := by
  induction m with
  | nil => simp [mapRemove]
  | cons hd tl ih =>
    obtain ⟨k3, v3⟩ := hd
    by_cases h3 : k3 = k
    · subst h3
      simp [mapRemove, mapLookup, Ne.symm h, ih]
    · simp [mapRemove, mapLookup, h3, ih]

/-- Removing a key twice is the same as removing it once. -/
theorem mapRemove_mapRemove {α : Type} (m : List (Nat × α)) (k : Nat) :
    mapRemove (mapRemove m k) k = mapRemove m k := by
  induction m with
  | nil => simp [mapRemove]
  | cons hd tl ih =>
    obtain ⟨k2, v2⟩ := hd
    by_cases h : k2 = k <;> simp [mapRemove, h, ih]

/-- A binding of the inserted map is an old binding or the new one. -/
theorem mem_of_mem_mapInsert {α : Type} {m : List (Nat × α)} {k k2 : Nat}
    {v v2 : α} (h : (k2, v2) ∈ mapInsert m k v) :
    (k2, v2) ∈ m ∨ (k2 = k ∧ v2 = v) := by
  induction m with
  | nil =>
    simp [mapInsert] at h
    exact Or.inr h
  | cons hd tl ih =>
    obtain ⟨k3, v3⟩ := hd
    by_cases h3 : k3 = k
    · simp [mapInsert, h3] at h
      rcases h with ⟨h1, h2⟩ | h
      · exact Or.inr ⟨h1, h2⟩
      · exact Or.inl (List.mem_cons_of_mem _ h)
    · simp [mapInsert, h3] at h
      rcases h with ⟨h1, h2⟩ | h
      · exact Or.inl (by simp [h1, h2])
      · rcases ih h with h | h
        · exact Or.inl (List.mem_cons_of_mem _ h)
        · exact Or.inr h

/-- A binding surviving a removal was a binding before. -/
theorem mem_of_mem_mapRemove {α : Type} {m : List (Nat × α)} {k k2 : Nat}
    {v2 : α} (h : (k2, v2) ∈ mapRemove m k) : (k2, v2) ∈ m := by
  induction m with
  | nil => simp [mapRemove] at h
  | cons hd tl ih =>
    obtain ⟨k3, v3⟩ := hd
    by_cases h3 : k3 = k
    · simp [mapRemove, h3] at h
      exact List.mem_cons_of_mem _ (ih h)
    · simp [mapRemove, h3] at h
      rcases h with ⟨h1, h2⟩ | h
      · simp [h1, h2]
      · exact List.mem_cons_of_mem _ (ih h)

/-- A successful lookup exhibits a binding of the map. -/
theorem mapLookup_some_mem {α : Type} {m : List (Nat × α)} {k : Nat} {v : α}
    (h : mapLookup m k = some v) : (k, v) ∈ m := by
  induction m with
  | nil => simp [mapLookup] at h
  | cons hd tl ih =>
    obtain ⟨k2, v2⟩ := hd
    by_cases h2 : k2 = k
    · subst h2
      simp [mapLookup] at h
      simp [h]
    · simp [mapLookup, h2] at h
      exact List.mem_cons_of_mem _ (ih h)

/-- The inserted value is a member of the set. -/
theorem mem_setInsert_self (s : List String) (v : String) :
    v ∈ setInsert s v := by
  by_cases h : v ∈ s <;> simp [setInsert, h]

/-- Old members stay members after a set insert. -/
theorem mem_setInsert_of_mem {s : List String} {x : String} (v : String)
    (h : x ∈ s) : x ∈ setInsert s v := by
  by_cases h2 : v ∈ s <;> simp [setInsert, h2, h]

/-- Mapping the identity function over a character list changes nothing. -/
theorem list_map_identity (l : List Char) : l.map (fun a => a) = l := by
  induction l with
  | nil => rfl
  | cons h t ih => simp [List.map, ih]

/-- An already-valid (all ASCII lowercase) string is fixed by lowercasing. -/
theorem toLowercase_of_valid {m : String} (h : is_valid_string m = true) :
    toLowercase m = m := by
  unfold is_valid_string at h
  unfold toLowercase
  have hfix : ∀ c ∈ m.toList, rustToLowerChar c = c := by
    intro c hc
    have := (List.all_eq_true.mp h) c hc
    unfold isAsciiLowerChar at this
    simp only [decide_eq_true_eq] at this
    unfold rustToLowerChar
    have : ¬ (65 ≤ c.toNat ∧ c.toNat ≤ 90) := by omega
    simp [this]
  rw [List.map_congr_left hfix, list_map_identity]
  cases m
  rfl

/-- A valid string normalizes to itself, hence stays valid. -/
theorem is_valid_toLowercase {m : String} (h : is_valid_string m = true) :
    is_valid_string (toLowercase m) = true := by
  rw [toLowercase_of_valid h]
  exact h

/-- Inversion of a successful `request`: the service was not paused, the
gas floor was met, the normalized message is valid, and the new state is
the old one with the request recorded and the counter bumped. -/
theorem request_ok_inv (c : Contract) (caller : AccountId) (gas : Nat)
    (did : CryptoHash) (m : String) (c2 : Contract)
    (h : c.request caller gas did m = Except.ok c2) :
    c.paused = false ∧ MIN_REQUEST_GAS ≤ gas ∧
    is_valid_string (toLowercase m) = true ∧
    c2 = { c with
      requests := mapInsert c.requests c.num_requests
        { data_id := did, originator_id := caller, message := toLowercase m }
      num_requests := c.num_requests + 1 } := by
  unfold Contract.request at h
  by_cases hp : c.paused = true
  · simp [hp] at h
  · rw [Bool.not_eq_true] at hp
    simp only [hp, Bool.false_eq_true, if_false] at h
    by_cases hg : gas < MIN_REQUEST_GAS
    · simp [hg] at h
    · simp only [hg, if_false] at h
      by_cases hv : is_valid_string (toLowercase m) = true
      · simp [hv] at h
        refine ⟨hp, by omega, hv, ?_⟩
        rw [← h, hp]
      · simp [hv] at h

/-- Inversion of a successful `respond`: the caller was the operator, the
request exists, the response is staged under the request id, and the
resume signal targets the supplied data id with the request id payload. -/
theorem respond_ok_inv (c : Contract) (caller : AccountId) (did : CryptoHash)
    (rid : RequestId) (resp : Response) (c2 : Contract) (sig : ResumeSignal)
    (h : c.respond caller did rid resp = Except.ok (c2, sig)) :
    caller = c.operator_id ∧ (∃ r, mapLookup c.requests rid = some r) ∧
    c2 = { c with responses := mapInsert c.responses rid resp } ∧
    sig = { data_id := did, payload_request_id := rid } := by
  unfold Contract.respond at h
  by_cases hop : caller = c.operator_id <;> simp [hop] at h
  cases hr : mapLookup c.requests rid with
  | none => rw [hr] at h; simp at h
  | some r =>
    rw [hr] at h
    simp at h
    exact ⟨hop, ⟨r, rfl⟩, h.1.symm, h.2.symm⟩

/-- Inversion of a successful `await_response`: a response was staged, the
request existed, the judgment parsed, the staleness check passed, and the
new state either commits the champion transition (win) or merely retires
the request and response (loss). -/
theorem await_response_ok_inv (c : Contract) (rid : RequestId) (c2 : Contract)
    (resp : Response) (h : c.await_response rid = Except.ok (c2, resp)) :
    ∃ req msg,
      mapLookup c.responses rid = some resp ∧
      mapLookup c.requests rid = some req ∧
      parseResponseMsg (resp.data.getD ("")) = some msg ∧
      msg.current_champion = c.current_champion ∧
      ((resp.ok && msg.guess_wins) = true ∧
        c2 = { c with
          responses := mapRemove c.responses rid
          requests := mapRemove c.requests rid
          all_champions := setInsert c.all_champions (toLowercase req.message)
          current_champion := toLowercase req.message
          champion_owner := req.originator_id } ∨
       (resp.ok && msg.guess_wins) = false ∧
        c2 = { c with
          responses := mapRemove c.responses rid
          requests := mapRemove c.requests rid }) := by
  unfold Contract.await_response at h
  cases hres : mapLookup c.responses rid with
  | none => rw [hres] at h; simp at h
  | some r =>
    rw [hres] at h
    simp only [] at h
    cases hreq : mapLookup c.requests rid with
    | none => rw [hreq] at h; simp at h
    | some req =>
      rw [hreq] at h
      simp only [] at h
      cases hp : parseResponseMsg (r.data.getD ("")) with
      | none => rw [hp] at h; simp at h
      | some msg =>
        rw [hp] at h
        simp only [] at h
        by_cases hch : msg.current_champion = c.current_champion
        · simp only [hch, if_pos rfl] at h
          by_cases hw : (r.ok && msg.guess_wins) = true
          · simp [hw, Contract.set_champion] at h
            refine ⟨req, msg, ?_, ?_, ?_, hch, Or.inl ⟨?_, ?_⟩⟩
            · rw [h.2]
            · rfl
            · rw [← h.2]; exact hp
            · rw [← h.2]; exact hw
            · exact h.1.symm
          · rw [Bool.not_eq_true] at hw
            simp only [hw, Bool.false_eq_true, if_false] at h
            simp at h
            refine ⟨req, msg, ?_, ?_, ?_, hch, Or.inr ⟨?_, ?_⟩⟩
            · rw [h.2]
            · rfl
            · rw [← h.2]; exact hp
            · rw [← h.2]; exact hw
            · exact h.1.symm
        · simp [hch] at h

/-- Inversion of a successful `remove_request`: the caller was the
operator and both the request and any staged response are removed. -/
theorem remove_request_ok_inv (c : Contract) (caller : AccountId)
    (rid : RequestId) (c2 : Contract)
    (h : c.remove_request caller rid = Except.ok c2) :
    caller = c.operator_id ∧
    c2 = { c with
      requests := mapRemove c.requests rid
      responses := mapRemove c.responses rid } := by
  unfold Contract.remove_request at h
  by_cases hop : caller = c.operator_id <;> simp [hop] at h
  exact ⟨hop, h.symm⟩

/-- Inversion of a successful `set_system_prompt`: operator-gated and only
the prompt changes. -/
theorem set_system_prompt_ok_inv (c : Contract) (caller : AccountId)
    (p : String) (c2 : Contract)
    (h : c.set_system_prompt caller p = Except.ok c2) :
    caller = c.operator_id ∧ c2 = { c with agent_system_prompt := p } := by
  unfold Contract.set_system_prompt at h
  by_cases hop : caller = c.operator_id <;> simp [hop] at h
  exact ⟨hop, h.symm⟩

/-- C7: provided the call gets past the pause and gas preconditions,
`request(s)` fails with the invalid-input error exactly when some
character of the lowercased `s` falls outside the restricted lowercase
alphabet; the message is lowercased before the check. -/
theorem request_invalid_input_iff (c : Contract) (caller : AccountId)
    (gas : Nat) (did : CryptoHash) (s : String)
    (hp : c.paused = false) (hg : MIN_REQUEST_GAS ≤ gas) :
    c.request caller gas did s = Except.error ContractError.IllegalInput ↔
    ∃ ch ∈ (toLowercase s).toList, isAsciiLowerChar ch = false := by
  unfold Contract.request
  simp only [hp, Bool.false_eq_true, if_false]
  have hg2 : ¬ gas < MIN_REQUEST_GAS := by omega
  simp only [hg2, if_false]
  by_cases hv : is_valid_string (toLowercase s) = true
  · simp only [hv, if_true]
    constructor
    · intro h
      simp at h
    · intro ⟨ch, hmem, hbad⟩
      unfold is_valid_string at hv
      have := (List.all_eq_true.mp hv) ch hmem
      rw [hbad] at this
      simp at this
  · simp only [hv, if_false]
    constructor
    · intro _
      unfold is_valid_string at hv
      simp only [List.all_eq_true] at hv
      push_neg at hv
      obtain ⟨ch, hmem, hbad⟩ := hv
      exact ⟨ch, hmem, Bool.eq_false_iff.mpr hbad⟩
    · intro _
      rfl

/-- C7 witness: the spec's example scenario, message `Paper!` is
normalized to `paper!` and rejected because of the bang character. -/
theorem request_invalid_input_iff_witness :
    sampleContract.request ("alice") MIN_REQUEST_GAS [1] ("Paper!") =
      Except.error ContractError.IllegalInput :=
  (request_invalid_input_iff sampleContract ("alice") MIN_REQUEST_GAS [1]
    ("Paper!") (by decide) (by decide)).mpr (by decide)

/-- C8: a successful operator `remove_request(id)` removes both the
request and any staged response for `id`, and a second call for the same
id is a successful no-op: it returns the same state, not an error. -/
theorem remove_request_idempotent (c : Contract) (caller : AccountId)
    (rid : RequestId) (c2 : Contract)
    (h : c.remove_request caller rid = Except.ok c2) :
    mapLookup c2.requests rid = none ∧ mapLookup c2.responses rid = none ∧
    c2.remove_request caller rid = Except.ok c2 := by
  obtain ⟨hop, hc2⟩ := remove_request_ok_inv c caller rid c2 h
  subst hc2
  refine ⟨mapLookup_mapRemove_self _ _, mapLookup_mapRemove_self _ _, ?_⟩
  unfold Contract.remove_request
  simp [hop, mapRemove_mapRemove]

/-- C8 witness: removing request 0 twice from a state holding a request
and a staged response gives the same state both times. -/
theorem remove_request_idempotent_witness :
    mapLookup (sampleContract.requests) 0 = none ∧
    mapLookup (sampleContract.responses) 0 = none ∧
    Contract.remove_request sampleContract ("operator") 0 =
      Except.ok sampleContract :=
  remove_request_idempotent
    { sampleContract with
      requests := [(0, sampleRequest)]
      responses := [(0, sampleEmptyResponse)] }
    ("operator") 0 sampleContract (by decide)

/-- C9: if the staged response's `data` is `None` or does not parse as the
judgment shape, `await_response` panics even when `response.ok` is false:
missing data is replaced by the empty string before parsing and parsing
happens before the `ok` flag is inspected, so no loss can be recorded
without a parseable judgment. -/
theorem await_response_requires_parseable (c : Contract) (rid : RequestId)
    (resp : Response) (hres : mapLookup c.responses rid = some resp)
    (hbad : resp.data = none ∨
      parseResponseMsg (resp.data.getD ("")) = none) :
    isErr (c.await_response rid) = true := by
  have hempty : parseResponseMsg ("") = none := by decide
  have hbad2 : parseResponseMsg (resp.data.getD ("")) = none := by
    rcases hbad with h1 | h1
    · rw [h1]
      exact hempty
    · exact h1
  unfold Contract.await_response
  rw [hres]
  simp only []
  cases hreq : mapLookup c.requests rid with
  | none => rfl
  | some req => simp [hbad2, isErr]

/-- C9 witness: a staged response with `ok = false` and no data makes the
resume fail rather than resolve as a loss. -/
theorem await_response_requires_parseable_witness :
    isErr (Contract.await_response
      { sampleContract with
        requests := [(0, sampleRequest)]
        responses := [(0, sampleEmptyResponse)]
        num_requests := 1 } 0) = true :=
  await_response_requires_parseable
    { sampleContract with
      requests := [(0, sampleRequest)]
      responses := [(0, sampleEmptyResponse)]
      num_requests := 1 } 0
    sampleEmptyResponse
    (by decide) (Or.inl rfl)

/-- C10: `respond` never reads the request's stored `data_id`: with the
operator calling and the request present it succeeds for every supplied
`data_id`, and two calls differing only in `data_id` produce the same
contract state, the data id flowing only into the host resume signal. -/
theorem respond_ignores_data_id (c : Contract) (caller : AccountId)
    (d1 d2 : CryptoHash) (rid : RequestId) (resp : Response) (r : Request)
    (hop : caller = c.operator_id)
    (hreq : mapLookup c.requests rid = some r) :
    c.respond caller d1 rid resp =
      Except.ok ({ c with responses := mapInsert c.responses rid resp },
        { data_id := d1, payload_request_id := rid }) ∧
    c.respond caller d2 rid resp =
      Except.ok ({ c with responses := mapInsert c.responses rid resp },
        { data_id := d2, payload_request_id := rid }) := by
  unfold Contract.respond
  constructor <;> simp [hop, hreq]

/-- C10 witness: two operator `respond` calls for request 0 differing
only in their data id (`[1]` versus `[2]`) stage the same state. -/
theorem respond_ignores_data_id_witness :
    Contract.respond
      { sampleContract with requests := [(0, sampleRequest)], num_requests := 1 }
      ("operator") [1] 0 sampleOkNoDataResponse =
      Except.ok
        ({ sampleContract with
           requests := [(0, sampleRequest)]
           num_requests := 1
           responses := mapInsert ([]) 0 sampleOkNoDataResponse },
         { data_id := [1], payload_request_id := 0 }) ∧
    Contract.respond
      { sampleContract with requests := [(0, sampleRequest)], num_requests := 1 }
      ("operator") [2] 0 sampleOkNoDataResponse =
      Except.ok
        ({ sampleContract with
           requests := [(0, sampleRequest)]
           num_requests := 1
           responses := mapInsert ([]) 0 sampleOkNoDataResponse },
         { data_id := [2], payload_request_id := 0 }) :=
  respond_ignores_data_id
    { sampleContract with requests := [(0, sampleRequest)], num_requests := 1 }
    ("operator") [1] [2] 0 sampleOkNoDataResponse sampleRequest
    (by decide) (by decide)

/-- C5: in every reachable state the current champion is a member of the
all-champions history, and `set_champion` inserts the new value into the
history while overwriting `current_champion` and `champion_owner`
together. -/
theorem champion_in_history :
    (∀ c : Contract, Reachable c →
      c.current_champion ∈ c.all_champions) ∧
    (∀ (c : Contract) (v : String) (o : AccountId),
      (c.set_champion v o).all_champions = setInsert c.all_champions v ∧
      (c.set_champion v o).current_champion = v ∧
      (c.set_champion v o).champion_owner = o) := by
  constructor
  · intro c hc
    induction hc with
    | init owner operator champ name prompt key =>
      exact mem_setInsert_self [] champ
    | set_system_prompt c caller p c2 hr h ih =>
      obtain ⟨_, hc2⟩ := set_system_prompt_ok_inv c caller p c2 h
      subst hc2
      exact ih
    | request c caller gas did msg c2 hr h ih =>
      obtain ⟨_, _, _, hc2⟩ := request_ok_inv c caller gas did msg c2 h
      subst hc2
      exact ih
    | respond c caller did rid resp c2 sig hr h ih =>
      obtain ⟨_, _, hc2, _⟩ := respond_ok_inv c caller did rid resp c2 sig h
      subst hc2
      exact ih
    | await_response c rid c2 resp hr h ih =>
      obtain ⟨req, msg, _, _, _, _, hcase⟩ :=
        await_response_ok_inv c rid c2 resp h
      rcases hcase with ⟨_, hc2⟩ | ⟨_, hc2⟩
      · subst hc2
        exact mem_setInsert_self _ _
      · subst hc2
        exact ih
    | remove_request c caller rid c2 hr h ih =>
      obtain ⟨_, hc2⟩ := remove_request_ok_inv c caller rid c2 h
      subst hc2
      exact ih
  · intro c v o
    exact ⟨rfl, rfl, rfl⟩

/-- C5 witness: the invariant at a concretely reached state (a win for
`paper` resolved on the initial state), and `set_champion` evaluated on
the sample contract. -/
theorem champion_in_history_witness :
    sampleContract.current_champion ∈ sampleContract.all_champions ∧
    (sampleContract.set_champion ("paper") ("alice")).all_champions =
      setInsert sampleContract.all_champions ("paper") ∧
    (sampleContract.set_champion ("paper") ("alice")).current_champion =
      ("paper") ∧
    (sampleContract.set_champion ("paper") ("alice")).champion_owner =
      ("alice") :=
  ⟨champion_in_history.1 sampleContract
    (Reachable.init ("owner") ("operator") ("rock") ("agent") ("prompt")
      ("key")),
   champion_in_history.2 sampleContract ("paper") ("alice")⟩

/-- Every stored request id in a reachable state is strictly below the
monotonic `num_requests` counter. -/
theorem reachable_request_ids_lt {c : Contract} (h : Reachable c) :
    ∀ k r, (k, r) ∈ c.requests → k < c.num_requests := by
  induction h with
  | init owner operator champ name prompt key =>
    intro k r hk
    simp [Contract.new] at hk
  | set_system_prompt c caller p c2 hr h ih =>
    obtain ⟨_, hc2⟩ := set_system_prompt_ok_inv c caller p c2 h
    subst hc2
    exact ih
  | request c caller gas did msg c2 hr h ih =>
    obtain ⟨_, _, _, hc2⟩ := request_ok_inv c caller gas did msg c2 h
    subst hc2
    intro k r hk
    rcases mem_of_mem_mapInsert hk with hk | ⟨hk, _⟩
    · exact Nat.lt_succ_of_lt (ih k r hk)
    · subst hk
      exact Nat.lt_succ_self _
  | respond c caller did rid resp c2 sig hr h ih =>
    obtain ⟨_, _, hc2, _⟩ := respond_ok_inv c caller did rid resp c2 sig h
    subst hc2
    exact ih
  | await_response c rid c2 resp hr h ih =>
    obtain ⟨req, msg, _, _, _, _, hcase⟩ :=
      await_response_ok_inv c rid c2 resp h
    rcases hcase with ⟨_, hc2⟩ | ⟨_, hc2⟩ <;> subst hc2 <;>
      exact fun k r hk => ih k r (mem_of_mem_mapRemove hk)
  | remove_request c caller rid c2 hr h ih =>
    obtain ⟨_, hc2⟩ := remove_request_ok_inv c caller rid c2 h
    subst hc2
    exact fun k r hk => ih k r (mem_of_mem_mapRemove hk)

/-- C6 (amended): `request` performs no duplicate-id collision check;
instead ids are issued from the monotonic `num_requests` counter, and in
every reachable state the id about to be issued is absent from the
ledger, so the overwriting insert can never hit an existing entry. -/
theorem request_id_fresh (c : Contract) (h : Reachable c) :
    mapLookup c.requests c.num_requests = none := by
  cases hl : mapLookup c.requests c.num_requests with
  | none => rfl
  | some r =>
    have h2 := reachable_request_ids_lt h _ _ (mapLookup_some_mem hl)
    exact absurd h2 (Nat.lt_irrefl _)

/-- C6 witness: the fresh-id property evaluated at the initial state. -/
theorem request_id_fresh_witness :
    mapLookup sampleContract.requests sampleContract.num_requests = none :=
  request_id_fresh sampleContract
    (Reachable.init ("owner") ("operator") ("rock") ("agent") ("prompt")
      ("key"))

/-- C6 counterexample: in a state whose ledger already holds the id about
to be issued, `request` does not fail with any duplicate-id error; it
succeeds and silently overwrites the entry, showing no collision check is
performed. -/
theorem request_duplicate_id_counterexample :
    mapLookup
      ({ sampleContract with requests := [(0, sampleRequest)] } :
        Contract).requests
      ({ sampleContract with requests := [(0, sampleRequest)] } :
        Contract).num_requests = some sampleRequest ∧
    Contract.request
      { sampleContract with requests := [(0, sampleRequest)] }
      ("bob") MIN_REQUEST_GAS [2] ("fire") =
      Except.ok
        { sampleContract with
          requests := [(0, bobRequest)]
          num_requests := 1 } := by
  constructor
  · decide
  · decide

/-- C1 (amended): when the staged judgment's `current_champion` differs
from the live champion at resume time, no champion transition is applied
and the persisting state is unchanged, but the resume does not resolve as
a loss: regardless of `guess_wins` it aborts with the illegal-current-
champion panic, whose revert leaves the whole call without effect. -/
theorem stale_judgment_aborts (c : Contract) (rid : RequestId)
    (resp : Response) (req : Request) (msg : ResponseMsg)
    (hres : mapLookup c.responses rid = some resp)
    (hreq : mapLookup c.requests rid = some req)
    (hparse : parseResponseMsg (resp.data.getD ("")) = some msg)
    (hstale : msg.current_champion ≠ c.current_champion) :
    c.await_response rid =
      Except.error ContractError.IllegalCurrentChampion ∧
    resumeState c rid = c := by
  have h1 : c.await_response rid =
      Except.error ContractError.IllegalCurrentChampion := by
    unfold Contract.await_response
    rw [hres]
    simp [hreq, hparse, hstale]
  refine ⟨h1, ?_⟩
  unfold resumeState
  rw [h1]

/-- C1 witness: the staleness scenario evaluated concretely — champion is
`scissors`, the judgment says `rock`, and the resume aborts. -/
theorem stale_judgment_aborts_witness :
    staleContract.await_response 0 =
      Except.error ContractError.IllegalCurrentChampion ∧
    resumeState staleContract 0 = staleContract :=
  stale_judgment_aborts staleContract 0 rockWinResponse sampleRequest rockWinMsg
    (by decide) (by decide) (by decide) (by decide)

/-- C1 counterexample: with the stale winning judgment staged, the claim's
"the resume resolves as a loss" is false at this input: `await_response`
returns the illegal-current-champion error instead of a loss value. -/
theorem stale_judgment_counterexample :
    parseResponseMsg (rockWinResponse.data.getD ("")) = some rockWinMsg ∧
    rockWinMsg.current_champion = ("rock") ∧
    staleContract.current_champion = ("scissors") ∧
    staleContract.await_response 0 =
      Except.error ContractError.IllegalCurrentChampion := by
  refine ⟨by decide, by decide, by decide, by decide⟩

/-- C3 (amended): after one successful `await_response(id)` the request
ledger no longer contains `id` and the staged response is gone, so a
second resume of `await_response` for the same id fails — but with the
missing-response panic (step 1), not with NotFound: the drained response
store is hit before the request-ledger lookup. Either way a champion
transition is never applied twice for one request. -/
theorem await_response_at_most_once (c : Contract) (rid : RequestId)
    (c2 : Contract) (resp : Response)
    (h : c.await_response rid = Except.ok (c2, resp)) :
    mapLookup c2.requests rid = none ∧
    mapLookup c2.responses rid = none ∧
    c2.await_response rid = Except.error ContractError.MissingResponse := by
  obtain ⟨req, msg, _, _, _, _, hcase⟩ :=
    await_response_ok_inv c rid c2 resp h
  have hreqs : c2.requests = mapRemove c.requests rid := by
    rcases hcase with ⟨_, hc2⟩ | ⟨_, hc2⟩ <;> subst hc2 <;> rfl
  have hresps : c2.responses = mapRemove c.responses rid := by
    rcases hcase with ⟨_, hc2⟩ | ⟨_, hc2⟩ <;> subst hc2 <;> rfl
  refine ⟨?_, ?_, ?_⟩
  · rw [hreqs]
    exact mapLookup_mapRemove_self _ _
  · rw [hresps]
    exact mapLookup_mapRemove_self _ _
  · unfold Contract.await_response
    rw [hresps, mapLookup_mapRemove_self]

/-- C3 witness: after concretely resolving request 0 as a loss, its id is
gone from both stores and a second resume fails with the missing-response
panic. -/
theorem await_response_at_most_once_witness :
    mapLookup ({ sampleContract with num_requests := 1 } :
      Contract).requests 0 = none ∧
    mapLookup ({ sampleContract with num_requests := 1 } :
      Contract).responses 0 = none ∧
    Contract.await_response { sampleContract with num_requests := 1 } 0 =
      Except.error ContractError.MissingResponse :=
  await_response_at_most_once onceContract 0
    { sampleContract with num_requests := 1 } lossResponse (by decide)

/-- C3 counterexample: the claim's "second resume fails with NotFound" is
false at this input: the second resume fails with the missing-response
panic, not with either NotFound-style error of the code. -/
theorem second_resume_not_notfound_counterexample :
    onceContract.await_response 0 =
      Except.ok ({ sampleContract with num_requests := 1 }, lossResponse) ∧
    Contract.await_response { sampleContract with num_requests := 1 } 0 =
      Except.error ContractError.MissingResponse ∧
    ContractError.MissingResponse ≠ ContractError.RequestNotFound ∧
    ContractError.MissingResponse ≠ ContractError.WrongRequest := by
  refine ⟨by decide, by decide, by decide, by decide⟩

/-- C4 (amended): if the staged data does not parse as the judgment
shape, `await_response` fails with the wrong-response-format panic and is
not retried; the panic aborts and reverts the call, so the request's
removal does not persist — the request is still in the ledger afterwards
— and no raw response value is returned to any caller; the error itself
is what is surfaced. -/
theorem malformed_judgment_aborts (c : Contract) (rid : RequestId)
    (resp : Response) (req : Request)
    (hres : mapLookup c.responses rid = some resp)
    (hreq : mapLookup c.requests rid = some req)
    (hbad : parseResponseMsg (resp.data.getD ("")) = none) :
    c.await_response rid =
      Except.error ContractError.WrongResponseFormat ∧
    resumeState c rid = c ∧
    mapLookup (resumeState c rid).requests rid = some req := by
  have h1 : c.await_response rid =
      Except.error ContractError.WrongResponseFormat := by
    unfold Contract.await_response
    rw [hres]
    simp [hreq, hbad]
  have h2 : resumeState c rid = c := by
    unfold resumeState
    rw [h1]
  refine ⟨h1, h2, ?_⟩
  rw [h2]
  exact hreq

/-- C4 witness: the malformed-judgment scenario evaluated concretely. -/
theorem malformed_judgment_aborts_witness :
    malformedContract.await_response 0 =
      Except.error ContractError.WrongResponseFormat ∧
    resumeState malformedContract 0 = malformedContract ∧
    mapLookup (resumeState malformedContract 0).requests 0 =
      some sampleRequest :=
  malformed_judgment_aborts malformedContract 0 garbageResponse
    sampleRequest (by decide) (by decide) (by decide)

/-- Forward evaluation of the winning resume path: with a staged `ok`
response whose judgment matches the live champion and has `guess_wins`,
`await_response` retires the request and response and commits the
champion transition for the request's (re-lowercased) message. -/
theorem await_response_win (c : Contract) (rid : RequestId) (resp : Response)
    (req : Request) (msg : ResponseMsg)
    (hres : mapLookup c.responses rid = some resp)
    (hreq : mapLookup c.requests rid = some req)
    (hparse : parseResponseMsg (resp.data.getD ("")) = some msg)
    (hchamp : msg.current_champion = c.current_champion)
    (hwin : (resp.ok && msg.guess_wins) = true) :
    c.await_response rid =
      Except.ok
        ({ c with
           responses := mapRemove c.responses rid
           requests := mapRemove c.requests rid
           all_champions := setInsert c.all_champions (toLowercase req.message)
           current_champion := toLowercase req.message
           champion_owner := req.originator_id }, resp) := by
  unfold Contract.await_response
  rw [hres]
  simp [hreq, hparse, hchamp, hwin, Contract.set_champion]

/-- C2: for a valid lowercase message `m`, a successful `request(m)`
followed by an operator `respond` staging a response with `ok = true`
whose data parses to a judgment matching the live champion with
`guess_wins = true` makes the resume succeed and commit the transition:
the champion becomes `m`, owned by the request's originator, and `m`
joins the all-champions history. -/
theorem challenger_win_updates_champion (c : Contract) (caller : AccountId)
    (gas : Nat) (did did2 : CryptoHash) (m : String) (c1 c2 : Contract)
    (sig : ResumeSignal) (resp : Response) (msg : ResponseMsg)
    (hvalid : is_valid_string m = true)
    (hreq : c.request caller gas did m = Except.ok c1)
    (hresp : c1.respond c1.operator_id did2 c.num_requests resp =
      Except.ok (c2, sig))
    (hok : resp.ok = true)
    (hparse : parseResponseMsg (resp.data.getD ("")) = some msg)
    (hchamp : msg.current_champion = c2.current_champion)
    (hwins : msg.guess_wins = true) :
    isErr (c2.await_response c.num_requests) = false ∧
    (resumeState c2 c.num_requests).current_champion = m ∧
    (resumeState c2 c.num_requests).champion_owner = caller ∧
    m ∈ (resumeState c2 c.num_requests).all_champions := by
  obtain ⟨hp, hg, hv2, hc1⟩ := request_ok_inv c caller gas did m c1 hreq
  obtain ⟨_, _, hc2, _⟩ :=
    respond_ok_inv c1 c1.operator_id did2 c.num_requests resp c2 sig hresp
  have hm : toLowercase m = m := toLowercase_of_valid hvalid
  have hres2 : mapLookup c2.responses c.num_requests = some resp := by
    rw [hc2]
    simp [mapLookup_mapInsert_self]
  have hreq2 : mapLookup c2.requests c.num_requests =
      some { data_id := did, originator_id := caller
             message := toLowercase m } := by
    rw [hc2, hc1]
    simp [mapLookup_mapInsert_self]
  have hwin : (resp.ok && msg.guess_wins) = true := by
    rw [hok, hwins]
    rfl
  have hawait := await_response_win c2 c.num_requests resp
    { data_id := did, originator_id := caller, message := toLowercase m }
    msg hres2 hreq2 hparse hchamp hwin
  refine ⟨?_, ?_, ?_, ?_⟩
  · rw [hawait]
    rfl
  · unfold resumeState
    rw [hawait]
    simp [hm]
  · unfold resumeState
    rw [hawait]
  · unfold resumeState
    rw [hawait]
    simp only []
    simp [hm]
    exact mem_setInsert_self _ _

/-- C2 witness: `alice` requests `paper` against champion `rock`, the
operator stages the winning rock judgment, and the resume crowns
`paper` owned by `alice`. -/
theorem challenger_win_updates_champion_witness :
    isErr (winStagedContract.await_response sampleContract.num_requests)
      = false ∧
    (resumeState winStagedContract
      sampleContract.num_requests).current_champion = ("paper") ∧
    (resumeState winStagedContract
      sampleContract.num_requests).champion_owner = ("alice") ∧
    ("paper" : String) ∈
      (resumeState winStagedContract
        sampleContract.num_requests).all_champions :=
  challenger_win_updates_champion sampleContract ("alice") MIN_REQUEST_GAS
    [1] [1] ("paper") requestedContract winStagedContract
    { data_id := [1], payload_request_id := 0 } rockWinResponse rockWinMsg
    (by decide) (by decide) (by decide) (by decide) (by decide) (by decide)
    (by decide)

/-- C4 counterexample: at this input the claim's "the request has already
been removed from the ledger" and "the raw response is still returned"
are both false: after the failed resume the request is still present, and
the call's result is the error, not a response value. -/
theorem malformed_judgment_counterexample :
    malformedContract.await_response 0 =
      Except.error ContractError.WrongResponseFormat ∧
    mapLookup (resumeState malformedContract 0).requests 0 =
      some sampleRequest ∧
    isErr (malformedContract.await_response 0) = true := by
  refine ⟨by decide, by decide, by decide⟩

end Challenge
